import Mathlib

/-!
Verification of the credential & session state store of a Signal-protocol
demo (`src/store.ts`), shallowly embedded in Lean 4.

JS `ArrayBuffer` contents are modelled as `List (Fin 256)` (a `Uint8Array`
view exposes bytes in `0..255`); JS strings produced by the byte/string
codec are modelled as their lists of UTF-16 code units (`List Nat`); the
backing `Map<string, StoreValue>` is modelled as an association list with
`Map` semantics (`mapGet`/`mapSet`/`mapDelete`/`mapHas`); thrown
exceptions are modelled with `Except StoreError`.
-/

/-- Bytes of an `ArrayBuffer`, as seen through a `Uint8Array` view. -/
abbrev Bytes := List (Fin 256)

/-- Model of `KeyPairType` of `store.ts`: `{ pubKey: ArrayBuffer; privKey: ArrayBuffer }`. -/
structure KeyPairT where
  pubKey : Bytes
  privKey : Bytes
deriving DecidableEq, Repr

/-- The `StoreValue` union of `store.ts`:
`KeyPairType | string | number | PreKeyType | SignedPreKeyType | ArrayBuffer | undefined`. -/
inductive StoreValue where
  | undef
  | str (s : String)
  | num (n : Int)
  | buf (b : Bytes)
  | keyPair (kp : KeyPairT)
  | preKey (keyId : Int) (kp : KeyPairT)
  | signedPreKey (keyId : Int) (kp : KeyPairT) (signature : Bytes)
deriving DecidableEq, Repr

/-- JS truthiness of a `StoreValue`: `undefined`, `0` and `""` are falsy,
objects (including empty `ArrayBuffer`s) are truthy. -/
def truthy : StoreValue → Bool
  | .undef => false
  | .str s => s != ""
  | .num n => n != 0
  | _ => true

/-- Model of `isArrayBuffer` of `store.ts` (an `instanceof ArrayBuffer` test). -/
def isArrayBufferV : StoreValue → Bool
  | .buf _ => true
  | _ => false

/-- Model of `isKeyPairType` of `store.ts`: an object with `privKey` and `pubKey`
both `ArrayBuffer`s. -/
def isKeyPairTypeV : StoreValue → Bool
  | .keyPair _ => true
  | _ => false

/-- Error taxonomy of the spec: `InvalidArgument` for null key/value passed
to a store primitive, `CorruptState` for a stored value failing its shape
check on typed read. The message is the JS `Error` message. -/
inductive StoreError where
  | invalidArgument (msg : String)
  | corruptState (msg : String)
deriving DecidableEq, Repr

/-- The backing `Map<string, StoreValue>`, as an association list with
unique-key `Map` semantics maintained by `mapSet`/`mapDelete`. -/
abbrev Store := List (String × StoreValue)

/-- Model of `Map.prototype.has`. -/
def mapHas (m : Store) (k : String) : Bool :=
  m.any (fun e => e.1 == k)

/-- Model of `Map.prototype.get` (`none` models JS `undefined` for an absent key). -/
def mapGet (m : Store) (k : String) : Option StoreValue :=
  (m.find? (fun e => e.1 == k)).map (fun e => e.2)

/-- Model of `Map.prototype.set`: update in place when the key is present (JS `Map`
keeps insertion order), append otherwise. -/
def mapSet (m : Store) (k : String) (v : StoreValue) : Store :=
  if m.any (fun e => e.1 == k) then
    m.map (fun e => if e.1 == k then (k, v) else e)
  else
    m ++ [(k, v)]

/-- Model of `Map.prototype.delete`. -/
def mapDelete (m : Store) (k : String) : Store :=
  m.filter (fun e => !(e.1 == k))

/- ### Store key namespaces (`STORE_PREFIX` of `store.ts`) -/

/-- Model of `STORE_PREFIX.PREKEY`. -/
def nsPreKey : String := "Sylens-KeypreKey"

/-- Model of `STORE_PREFIX.SIGNED_KEY`. -/
def nsSignedKey : String := "Sylens-KeysignedKey"

/-- Model of `STORE_PREFIX.IDENTITY`. -/
def nsIdentity : String := "identityKey"

/-- Model of `STORE_PREFIX.SESSION`. -/
def nsSession : String := "session"

/- ### Byte/string codec -/

/-- ECMAScript `ToUint16`, applied by `String.fromCharCode` to each argument. -/
def toUint16 (n : Nat) : Nat := n % 65536

/-- Model of `uint8ArrayToString` of `store.ts`: empty input gives `""`; otherwise the
loop `for (let i = 0; i < arr.length; i += chunkSize)` takes
`arr.slice(i, i + 1024)`, expands it with `String.fromCharCode(...chunk)`
(one UTF-16 code unit per byte), and the parts are joined. The `j`-th
iteration reads the slice starting at `1024 * j`; the loop runs
`⌈arr.length / 1024⌉` times. -/
def uint8ArrayToString (arr : Bytes) : List Nat :=
  if arr.length = 0 then []
  else
    let parts := (List.range ((arr.length + 1023) / 1024)).map
      (fun j => ((arr.drop (1024 * j)).take 1024).map (fun b => toUint16 b.val))
    parts.flatten

/-- Model of `arrayBufferToString` of `store.ts`: view the buffer as bytes, convert. -/
def arrayBufferToString (b : Bytes) : List Nat :=
  uint8ArrayToString b

/- ### Store primitives -/

namespace SignalProtocolStore

/-- Model of `validateKey` of `store.ts`: throws iff `key == null` (null or
undefined), modelled as the `none` case; returns the key for convenience. -/
def validateKey : Option String → Except StoreError String
  | none => .error (.invalidArgument "Key cannot be null or undefined")
  | some k => .ok k

/-- Model of `validateKeyValue` of `store.ts`: throws iff `key == null || value == null`
(the nullish `StoreValue` is `undefined`). -/
def validateKeyValue : Option String → StoreValue → Except StoreError String
  | none, _ => .error (.invalidArgument "Key and value cannot be null or undefined")
  | some _, .undef => .error (.invalidArgument "Key and value cannot be null or undefined")
  | some k, _ => .ok k

/-- Model of `get` of `store.ts`: `this._store.has(key) ? this._store.get(key) : defaultValue`. -/
def get (st : Store) (key : Option String) (defaultValue : StoreValue) :
    Except StoreError StoreValue := do
  let k ← validateKey key
  pure (if mapHas st k then (mapGet st k).getD defaultValue else defaultValue)

/-- Model of `remove` of `store.ts`. -/
def remove (st : Store) (key : Option String) : Except StoreError Store := do
  let k ← validateKey key
  pure (mapDelete st k)

/-- Model of `put` of `store.ts`. -/
def put (st : Store) (key : Option String) (value : StoreValue) :
    Except StoreError Store := do
  let k ← validateKeyValue key value
  pure (mapSet st k value)

end SignalProtocolStore

/-- The `Direction` parameter of `isTrustedIdentity` (ignored by the code). -/
inductive Direction where
  | sending
  | receiving
deriving DecidableEq, Repr

/-- Modelled from the spec: the "derived address name" (spec §9) computed by
the external library's `SignalProtocolAddress.fromString(identifier)` /
`getName()` on a `name.deviceId` identifier — the part of the identifier
before the first `.` (JS `identifier.split(".")[0]`). -/
def addressName (identifier : String) : String :=
  ⟨identifier.data.takeWhile (fun c => c != '.')⟩

namespace SignalProtocolStore

/-- Model of `getIdentityKeyPair` of `store.ts`. -/
def getIdentityKeyPair (st : Store) : Except StoreError (Option KeyPairT) := do
  let kp ← get st (some nsIdentity) .undef
  if truthy kp = false then pure none
  else match kp with
    | .keyPair p => pure (some p)
    | _ => throw (.corruptState "Stored identity key has invalid format")

/-- Model of `getLocalRegistrationId` of `store.ts`. -/
def getLocalRegistrationId (st : Store) : Except StoreError (Option Int) := do
  let rid ← get st (some "registrationId") .undef
  match rid with
  | .num n => pure (some n)
  | .undef => pure none
  | _ => throw (.corruptState "Stored registration ID is not a number")

/-- Model of `isTrustedIdentity` of `store.ts`, line by line: it first `remove`s the
identity entry for `identifier`, then validates the identifier, then `get`s
the (just removed) trusted key, returns `true` when that is falsy, throws
when it is truthy but not an `ArrayBuffer`, and otherwise compares the
codec images of the candidate and the stored key. -/
def isTrustedIdentity (st : Store) (identifier : String) (identityKey : Bytes)
    (_direction : Direction) : Except StoreError (Bool × Store) := do
  let st1 ← remove st (some (nsIdentity ++ identifier))
  let _ ← validateKey (some identifier)
  let trusted ← get st1 (some (nsIdentity ++ identifier)) .undef
  if truthy trusted = false then pure (true, st1)
  else match trusted with
    | .buf b =>
        pure (decide (arrayBufferToString identityKey = arrayBufferToString b), st1)
    | _ => throw (.corruptState "Stored identity key has invalid format")

/-- Model of `loadPreKey` of `store.ts` (`keyId` already interpolated to a string). -/
def loadPreKey (st : Store) (keyId : String) : Except StoreError (Option KeyPairT) := do
  let res ← get st (some (nsPreKey ++ keyId)) .undef
  if truthy res = false then pure none
  else match res with
    | .keyPair p => pure (some p)
    | _ => throw (.corruptState "Stored pre-key has invalid format")

/-- Model of `loadSession` of `store.ts`. -/
def loadSession (st : Store) (identifier : String) : Except StoreError (Option String) := do
  let r ← get st (some (nsSession ++ identifier)) .undef
  match r with
  | .str s => pure (some s)
  | .undef => pure none
  | _ => throw (.corruptState "Session record must be a string")

/-- Model of `loadSignedPreKey` of `store.ts`. -/
def loadSignedPreKey (st : Store) (keyId : String) : Except StoreError (Option KeyPairT) := do
  let res ← get st (some (nsSignedKey ++ keyId)) .undef
  if truthy res = false then pure none
  else match res with
    | .keyPair p => pure (some p)
    | _ => throw (.corruptState "Stored signed pre-key has invalid format")

/-- Model of `removePreKey` of `store.ts`. -/
def removePreKey (st : Store) (keyId : String) : Except StoreError Store :=
  remove st (some (nsPreKey ++ keyId))

/-- Model of `saveIdentity` of `store.ts`: validates, derives the address name,
reads any existing entry under the *derived name*, throws on a truthy
non-buffer entry, stores the new key unconditionally under the derived
name, and returns whether a truthy existing entry had different bytes
(via the codec images, as the code compares strings). -/
def saveIdentity (st : Store) (identifier : String) (identityKey : Bytes) :
    Except StoreError (Bool × Store) := do
  let _ ← validateKeyValue (some identifier) (.buf identityKey)
  let name := addressName identifier
  let existing ← get st (some (nsIdentity ++ name)) .undef
  if truthy existing && !(isArrayBufferV existing) then
    throw (.corruptState "Existing identity key has invalid format")
  else do
    let st2 ← put st (some (nsIdentity ++ name)) (.buf identityKey)
    let replaced := match existing with
      | .buf b => decide (arrayBufferToString identityKey ≠ arrayBufferToString b)
      | _ => false
    pure (replaced, st2)

/-- Model of `storeSession` of `store.ts`. -/
def storeSession (st : Store) (identifier : String) (record : String) :
    Except StoreError Store :=
  put st (some (nsSession ++ identifier)) (.str record)

/-- Model of `loadIdentityKey` of `store.ts` (keys by the *raw* identifier string). -/
def loadIdentityKey (st : Store) (identifier : String) :
    Except StoreError (Option Bytes) := do
  let _ ← validateKey (some identifier)
  let key ← get st (some (nsIdentity ++ identifier)) .undef
  if truthy key = false then pure none
  else match key with
    | .buf b => pure (some b)
    | _ => throw (.corruptState "Stored identity key has invalid format")

/-- Model of `storePreKey` of `store.ts`. -/
def storePreKey (st : Store) (keyId : String) (keyPair : KeyPairT) :
    Except StoreError Store :=
  put st (some (nsPreKey ++ keyId)) (.keyPair keyPair)

/-- Model of `storeSignedPreKey` of `store.ts`. -/
def storeSignedPreKey (st : Store) (keyId : String) (keyPair : KeyPairT) :
    Except StoreError Store :=
  put st (some (nsSignedKey ++ keyId)) (.keyPair keyPair)

/-- Model of `removeSignedPreKey` of `store.ts`. -/
def removeSignedPreKey (st : Store) (keyId : String) : Except StoreError Store :=
  remove st (some (nsSignedKey ++ keyId))

/-- Model of `removeSession` of `store.ts`. -/
def removeSession (st : Store) (identifier : String) : Except StoreError Store :=
  remove st (some (nsSession ++ identifier))

/-- Model of `removeAllSessions` of `store.ts`: iterate over the entries and delete
each whose key starts with `session` + `identifier`. Deleting the entry
under iteration does not change which later entries a JS `Map` iterator
visits, so the loop is a fold of conditional deletes over the entry list. -/
def removeAllSessions (st : Store) (identifier : String) : Store :=
  st.foldl
    (fun acc e =>
      if e.1.startsWith (nsSession ++ identifier) then mapDelete acc e.1 else acc)
    st

end SignalProtocolStore

/- ### Lemmas about the map model -/

theorem mapGet_eq_none_of_not_has {m : Store} {k : String} (h : mapHas m k = false) :
    mapGet m k = none := by
  rw [mapGet, List.find?_eq_none.mpr, Option.map_none']
  intro x hx
  simp only [mapHas, List.any_eq_false] at h
  exact h x hx

theorem mapGet_mapDelete_self (m : Store) (k : String) :
    mapGet (mapDelete m k) k = none := by
  rw [mapGet, List.find?_eq_none.mpr, Option.map_none']
  intro x hx
  simp only [mapDelete, List.mem_filter] at hx
  simpa using hx.2

theorem mapDelete_of_not_has {m : Store} {k : String} (h : mapHas m k = false) :
    mapDelete m k = m := by
  simp only [mapHas, List.any_eq_false] at h
  rw [mapDelete, List.filter_eq_self.mpr]
  intro x hx
  simpa using h x hx

theorem mapGet_mapSet_self (m : Store) (k : String) (v : StoreValue) :
    mapGet (mapSet m k v) k = some v := by
  rw [mapSet]
  by_cases hA : m.any (fun e => e.1 == k) = true
  · rw [if_pos hA]
    induction m with
    | nil => simp at hA
    | cons e t ih =>
      rw [List.any_cons] at hA
      by_cases he : (e.1 == k) = true
      · simp only [List.map_cons, if_pos he, mapGet]
        rw [List.find?_cons_of_pos _ (by simp)]
        rfl
      · simp only [List.map_cons, if_neg he, mapGet]
        rw [List.find?_cons_of_neg _ (by simpa using he)]
        have hA' : t.any (fun e => e.1 == k) = true := by
          rcases Bool.or_eq_true_iff.mp hA with h | h
          · exact absurd h he
          · exact h
        exact ih hA'
  · rw [if_neg hA]
    have h0 : mapGet m k = none :=
      mapGet_eq_none_of_not_has (Bool.eq_false_iff.mpr hA)
    rw [mapGet] at h0 ⊢
    rw [List.find?_append]
    rw [Option.map_eq_none'] at h0
    rw [h0, Option.none_or, List.find?_cons_of_pos _ (by simp)]
    rfl

/-- A left-cancellation law for string concatenation, used to separate the
`identityKey`-namespaced slots of distinct peer identifiers. -/
theorem string_append_left_cancel {a b c : String} (h : a ++ b = a ++ c) : b = c := by
  have hd : (a ++ b).data = (a ++ c).data := congrArg String.data h
  cases a with
  | mk da =>
    cases b with
    | mk db =>
      cases c with
      | mk dc =>
        have hd' : da ++ db = da ++ dc := by simpa [String.append] using hd
        have : db = dc := List.append_cancel_left hd'
        simp [this]

/- ### Lemmas about the byte/string codec -/

theorem flatten_range_slices {α : Type} :
    ∀ (m : Nat) (l : List α), l.length ≤ 1024 * m →
    ((List.range m).map (fun j => (l.drop (1024 * j)).take 1024)).flatten = l := by
  intro m
  induction m with
  | zero =>
    intro l hl
    have : l = [] := List.eq_nil_of_length_eq_zero (Nat.le_zero.mp (by simpa using hl))
    simp [this]
  | succ n ih =>
    intro l hl
    rw [List.range_succ_eq_map, List.map_cons, List.flatten_cons, List.map_map]
    have hslice : ((fun j => (l.drop (1024 * j)).take 1024) ∘ Nat.succ)
        = fun j => ((l.drop 1024).drop (1024 * j)).take 1024 := by
      funext j
      simp only [Function.comp]
      rw [List.drop_drop]
      congr 2
      omega
    rw [hslice, ih (l.drop 1024) (by rw [List.length_drop]; omega)]
    simp

/-- The codec maps each byte to exactly its value as one UTF-16 code unit:
the chunking is invisible in the output. -/
theorem uint8ArrayToString_eq_map_val (arr : Bytes) :
    uint8ArrayToString arr = arr.map Fin.val := by
  rw [uint8ArrayToString]
  by_cases h0 : arr.length = 0
  · rw [if_pos h0]
    have : arr = [] := List.eq_nil_of_length_eq_zero h0
    simp [this]
  · rw [if_neg h0]
    have hmap : ∀ j : Nat,
        ((arr.drop (1024 * j)).take 1024).map (fun b => toUint16 b.val)
        = ((arr.drop (1024 * j)).take 1024).map Fin.val := by
      intro j
      apply List.map_congr_left
      intro b _
      show toUint16 b.val = b.val
      exact Nat.mod_eq_of_lt (lt_trans b.isLt (by norm_num))
    calc ((List.range ((arr.length + 1023) / 1024)).map
            (fun j => ((arr.drop (1024 * j)).take 1024).map (fun b => toUint16 b.val))).flatten
        = ((List.range ((arr.length + 1023) / 1024)).map
            (fun j => ((arr.drop (1024 * j)).take 1024).map Fin.val)).flatten := by
          congr 1
          exact List.map_congr_left (fun j _ => hmap j)
      _ = ((List.range ((arr.length + 1023) / 1024)).map
            ((List.map Fin.val) ∘ (fun j => (arr.drop (1024 * j)).take 1024))).flatten := rfl
      _ = (((List.range ((arr.length + 1023) / 1024)).map
            (fun j => (arr.drop (1024 * j)).take 1024)).map (List.map Fin.val)).flatten := by
          rw [List.map_map]
      _ = (((List.range ((arr.length + 1023) / 1024)).map
            (fun j => (arr.drop (1024 * j)).take 1024)).flatten).map Fin.val := by
          rw [List.map_flatten]
      _ = arr.map Fin.val := by
          rw [flatten_range_slices]
          have hq := Nat.div_add_mod (arr.length + 1023) 1024
          have hr : (arr.length + 1023) % 1024 < 1024 := Nat.mod_lt _ (by norm_num)
          omega

/-- The codec is injective on buffers, so the string comparison in
`isTrustedIdentity`/`saveIdentity` is byte-exact comparison. -/
theorem arrayBufferToString_inj {a b : Bytes} :
    arrayBufferToString a = arrayBufferToString b ↔ a = b := by
  constructor
  · intro h
    rw [arrayBufferToString, arrayBufferToString, uint8ArrayToString_eq_map_val,
      uint8ArrayToString_eq_map_val] at h
    exact List.map_injective_iff.mpr Fin.val_injective h
  · intro h
    rw [h]

namespace SignalProtocolStore

/-- Behaviour of the `get` primitive on a non-null key, as an `Option.getD`. -/
theorem get_some_key (st : Store) (k : String) (d : StoreValue) :
    get st (some k) d = .ok ((mapGet st k).getD d) := by
  show Except.ok (if mapHas st k then (mapGet st k).getD d else d)
      = Except.ok ((mapGet st k).getD d)
  cases hA : mapHas st k
  · rw [if_neg (by simp [hA]), mapGet_eq_none_of_not_has hA]
    rfl
  · rw [if_pos (by simp [hA])]

end SignalProtocolStore

/-- Claim C3: for every store state, peer identifier and candidate key,
`isTrustedIdentity` returns `true`, and as a side effect it deletes any
trusted-identity entry stored under that identifier before reading it, so
the byte-comparison branch is unreachable and the result never depends on
previously saved identity keys. -/
theorem claim_C3_trust_check_always_true
    (st : Store) (identifier : String) (key : Bytes) (d : Direction) :
    SignalProtocolStore.isTrustedIdentity st identifier key d
      = .ok (true, mapDelete st (nsIdentity ++ identifier)) := by
  show (do
    let trusted ← SignalProtocolStore.get (mapDelete st (nsIdentity ++ identifier))
      (some (nsIdentity ++ identifier)) .undef
    if truthy trusted = false then
      pure (true, mapDelete st (nsIdentity ++ identifier))
    else match trusted with
      | .buf b => pure (decide (arrayBufferToString key = arrayBufferToString b),
          mapDelete st (nsIdentity ++ identifier))
      | _ => throw (.corruptState "Stored identity key has invalid format")
    : Except StoreError (Bool × Store)) = _
  rw [SignalProtocolStore.get_some_key, mapGet_mapDelete_self]
  rfl

/-- Claim C1 (code-bug evidence): evaluating the code at a concrete failing
input. After `saveIdentity("alice.1", [1])` (which stores the key under the
derived name `alice`), `isTrustedIdentity("alice.1", [2])` returns `true`
even though the candidate's bytes differ from the recorded key — the claim
requires `false`. The trust check deletes the entry under
`identityKey` + `"alice.1"` and then reads it back, so it can never see the
pinned key. -/
theorem claim_C1_eval :
    SignalProtocolStore.saveIdentity [] "alice.1" [(1 : Fin 256)]
      = .ok (false, [(nsIdentity ++ "alice", .buf [(1 : Fin 256)])]) ∧
    SignalProtocolStore.isTrustedIdentity
        [(nsIdentity ++ "alice", .buf [(1 : Fin 256)])] "alice.1" [(2 : Fin 256)]
        .sending
      = .ok (true, [(nsIdentity ++ "alice", .buf [(1 : Fin 256)])]) := by
  constructor
  · rfl
  · rfl

/-- Claim C2 (code-bug evidence): `isTrustedIdentity` is not a pure check.
On a store holding a trusted-identity entry for `alice`, the call deletes
that entry: the resulting store is empty, not equal to the input store. -/
theorem claim_C2_eval :
    SignalProtocolStore.isTrustedIdentity
        [(nsIdentity ++ "alice", .buf [(1 : Fin 256)])] "alice" [(1 : Fin 256)]
        .receiving
      = .ok (true, []) ∧
    ([] : Store) ≠ [(nsIdentity ++ "alice", .buf [(1 : Fin 256)])] := by
  constructor
  · rfl
  · decide

/-- Claim C10: pre-key round-trip. For every store state, pre-key id and
`KeyPair` (both byte buffers present), `storePreKey(id, k)` succeeds and
`loadPreKey(id)` on the resulting store returns exactly `k`. -/
theorem claim_C10_prekey_round_trip (st : Store) (keyId : String) (kp : KeyPairT) :
    SignalProtocolStore.storePreKey st keyId kp
      = .ok (mapSet st (nsPreKey ++ keyId) (.keyPair kp)) ∧
    SignalProtocolStore.loadPreKey (mapSet st (nsPreKey ++ keyId) (.keyPair kp)) keyId
      = .ok (some kp) := by
  constructor
  · rfl
  · show (do
      let res ← SignalProtocolStore.get (mapSet st (nsPreKey ++ keyId) (.keyPair kp))
        (some (nsPreKey ++ keyId)) .undef
      if truthy res = false then pure none
      else match res with
        | .keyPair p => pure (some p)
        | _ => throw (.corruptState "Stored pre-key has invalid format")
      : Except StoreError (Option KeyPairT)) = _
    rw [SignalProtocolStore.get_some_key, mapGet_mapSet_self]
    rfl

/-- Claim C8: the byte-to-string codec is a lossless 1:1 mapping. For every
byte array, `uint8ArrayToString` produces a string whose length equals the
array's length, whose code unit at each position `i` equals the byte at
position `i`, and whose code-unit sequence is exactly the byte sequence —
so decoding each character back to its code reproduces the original bytes
(all lengths, in particular the chunk-boundary cases 0, 1, 1023, 1024 and
5000, are instances of this universally quantified statement). -/
theorem claim_C8_codec_lossless (arr : Bytes) :
    (uint8ArrayToString arr).length = arr.length ∧
    (∀ i : Nat, (uint8ArrayToString arr)[i]? = (arr[i]?).map Fin.val) ∧
    uint8ArrayToString arr = arr.map Fin.val := by
  refine ⟨?_, ?_, uint8ArrayToString_eq_map_val arr⟩
  · rw [uint8ArrayToString_eq_map_val, List.length_map]
  · intro i
    rw [uint8ArrayToString_eq_map_val, List.getElem?_map]

/-- Claim C5: identity save/load keying mismatch. For every identifier whose
derived address name differs from the full string (the `name.deviceId`
form) and every key `k`, `saveIdentity(identifier, k)` stores `k` under the
identity namespace concatenated with the *parsed name*, so
`loadIdentityKey(identifier)` returns `undefined` while
`loadIdentityKey(name)` returns `k`. -/
theorem claim_C5_keying_mismatch (identifier : String) (k : Bytes)
    (hname : addressName identifier ≠ identifier) :
    SignalProtocolStore.saveIdentity [] identifier k
      = .ok (false, [(nsIdentity ++ addressName identifier, .buf k)]) ∧
    SignalProtocolStore.loadIdentityKey
        [(nsIdentity ++ addressName identifier, .buf k)] identifier = .ok none ∧
    SignalProtocolStore.loadIdentityKey
        [(nsIdentity ++ addressName identifier, .buf k)] (addressName identifier)
      = .ok (some k) := by
  refine ⟨rfl, ?_, ?_⟩
  · have hne : ((nsIdentity ++ addressName identifier) == (nsIdentity ++ identifier)) = false := by
      rw [beq_eq_false_iff_ne]
      intro h
      exact hname (string_append_left_cancel h)
    show (do
      let key ← SignalProtocolStore.get [(nsIdentity ++ addressName identifier, .buf k)]
        (some (nsIdentity ++ identifier)) .undef
      if truthy key = false then pure none
      else match key with
        | .buf b => pure (some b)
        | _ => throw (.corruptState "Stored identity key has invalid format")
      : Except StoreError (Option Bytes)) = _
    rw [SignalProtocolStore.get_some_key]
    rw [show mapGet [(nsIdentity ++ addressName identifier, .buf k)]
        (nsIdentity ++ identifier) = none from by
      rw [mapGet, List.find?_cons_of_neg _ (by simpa using hne)]
      rfl]
    rfl
  · show (do
      let key ← SignalProtocolStore.get [(nsIdentity ++ addressName identifier, .buf k)]
        (some (nsIdentity ++ addressName identifier)) .undef
      if truthy key = false then pure none
      else match key with
        | .buf b => pure (some b)
        | _ => throw (.corruptState "Stored identity key has invalid format")
      : Except StoreError (Option Bytes)) = _
    rw [SignalProtocolStore.get_some_key]
    rw [show mapGet [(nsIdentity ++ addressName identifier, .buf k)]
        (nsIdentity ++ addressName identifier) = some (.buf k) from by
      rw [mapGet, List.find?_cons_of_pos _ (by simp)]
      rfl]
    rfl

theorem claim_C5_witness :
    addressName "alice.1" ≠ "alice.1" ∧
    (SignalProtocolStore.saveIdentity [] "alice.1" [(7 : Fin 256)]
      = .ok (false, [(nsIdentity ++ addressName "alice.1", .buf [(7 : Fin 256)])]) ∧
    SignalProtocolStore.loadIdentityKey
        [(nsIdentity ++ addressName "alice.1", .buf [(7 : Fin 256)])] "alice.1" = .ok none ∧
    SignalProtocolStore.loadIdentityKey
        [(nsIdentity ++ addressName "alice.1", .buf [(7 : Fin 256)])] (addressName "alice.1")
      = .ok (some [(7 : Fin 256)])) :=
  ⟨by decide, claim_C5_keying_mismatch "alice.1" [(7 : Fin 256)] (by decide)⟩

/-- Unfolding of `saveIdentity` to an explicit conditional on the current
slot contents. -/
theorem saveIdentity_eq (st : Store) (p : String) (k : Bytes) :
    SignalProtocolStore.saveIdentity st p k =
      (let existing := (mapGet st (nsIdentity ++ addressName p)).getD .undef
       if truthy existing && !(isArrayBufferV existing) then
         .error (.corruptState "Existing identity key has invalid format")
       else .ok ((match existing with
         | .buf b => decide (arrayBufferToString k ≠ arrayBufferToString b)
         | _ => false), mapSet st (nsIdentity ++ addressName p) (.buf k))) := by
  show (do
    let existing ← SignalProtocolStore.get st (some (nsIdentity ++ addressName p)) .undef
    if truthy existing && !(isArrayBufferV existing) then
      throw (.corruptState "Existing identity key has invalid format")
    else do
      let st2 ← SignalProtocolStore.put st (some (nsIdentity ++ addressName p)) (.buf k)
      let replaced := match existing with
        | .buf b => decide (arrayBufferToString k ≠ arrayBufferToString b)
        | _ => false
      pure (replaced, st2)
    : Except StoreError (Bool × Store)) = _
  rw [SignalProtocolStore.get_some_key]
  rfl

/-- Claim C4: `saveIdentity(p, k)` stores `k` unconditionally under peer
`p`'s identity slot and returns `true` iff a previously recorded key
existed for that slot with bytes differing from `k` (in particular `false`
when no prior key existed, and `false` on re-saving the same key). The
hypothesis excludes the corrupt-slot case in which the code throws. -/
theorem claim_C4_saveIdentity_contract (st : Store) (p : String) (k : Bytes)
    (hslot : ∀ v, mapGet st (nsIdentity ++ addressName p) = some v →
      isArrayBufferV v = true ∨ truthy v = false) :
    ∃ r : Bool, SignalProtocolStore.saveIdentity st p k
        = .ok (r, mapSet st (nsIdentity ++ addressName p) (.buf k)) ∧
      (r = true ↔ ∃ b, mapGet st (nsIdentity ++ addressName p) = some (.buf b) ∧ b ≠ k) := by
  rcases h : mapGet st (nsIdentity ++ addressName p) with _ | v
  · refine ⟨false, ?_, by simp [h]⟩
    rw [saveIdentity_eq, h]
    rfl
  · cases v with
    | buf b =>
      refine ⟨decide (arrayBufferToString k ≠ arrayBufferToString b), ?_, ?_⟩
      · rw [saveIdentity_eq, h]
        rfl
      · constructor
        · intro hr
          refine ⟨b, rfl, fun hbk => (of_decide_eq_true hr) (by rw [hbk])⟩
        · rintro ⟨b', hb', hne⟩
          have hbb : b = b' := by simpa using hb'
          subst hbb
          exact decide_eq_true (fun hEq => hne (arrayBufferToString_inj.mp hEq).symm)
    | undef =>
      refine ⟨false, ?_, by simp [h]⟩
      rw [saveIdentity_eq, h]
      rfl
    | str s =>
      rcases hslot _ h with hbuf | hfalsy
      · exact absurd hbuf (by simp [isArrayBufferV])
      · refine ⟨false, ?_, by simp [h]⟩
        rw [saveIdentity_eq, h]
        have ht : truthy (.str s) = false := hfalsy
        simp [ht]
    | num n =>
      rcases hslot _ h with hbuf | hfalsy
      · exact absurd hbuf (by simp [isArrayBufferV])
      · refine ⟨false, ?_, by simp [h]⟩
        rw [saveIdentity_eq, h]
        have ht : truthy (.num n) = false := hfalsy
        simp [ht]
    | keyPair kp =>
      rcases hslot _ h with hbuf | hfalsy
      · exact absurd hbuf (by simp [isArrayBufferV])
      · exact absurd hfalsy (by simp [truthy])
    | preKey i kp =>
      rcases hslot _ h with hbuf | hfalsy
      · exact absurd hbuf (by simp [isArrayBufferV])
      · exact absurd hfalsy (by simp [truthy])
    | signedPreKey i kp sig =>
      rcases hslot _ h with hbuf | hfalsy
      · exact absurd hbuf (by simp [isArrayBufferV])
      · exact absurd hfalsy (by simp [truthy])

theorem claim_C4_witness :
    ∃ r : Bool, SignalProtocolStore.saveIdentity [] "alice.1" [(2 : Fin 256)]
        = .ok (r, mapSet [] (nsIdentity ++ addressName "alice.1") (.buf [(2 : Fin 256)])) ∧
      (r = true ↔ ∃ b, mapGet [] (nsIdentity ++ addressName "alice.1") = some (.buf b)
        ∧ b ≠ [(2 : Fin 256)]) :=
  claim_C4_saveIdentity_contract [] "alice.1" [(2 : Fin 256)]
    (fun v hv => by simp [mapGet] at hv)

/-- Claim C9: store primitive contract. `get` fails with `InvalidArgument`
iff the key is null and otherwise returns the stored value (or the default
when unset); `put` fails with `InvalidArgument` iff key or value is null
and otherwise overwrites silently; `remove` fails only on a null key and is
a no-op on an absent key, so `removePreKey` on a never-stored id neither
errors nor changes the store. -/
theorem claim_C9_primitive_contract :
    (∀ (st : Store) (d : StoreValue),
        SignalProtocolStore.get st none d
          = .error (.invalidArgument "Key cannot be null or undefined")) ∧
    (∀ (st : Store) (k : String) (d : StoreValue),
        SignalProtocolStore.get st (some k) d = .ok ((mapGet st k).getD d)) ∧
    (∀ (st : Store) (v : StoreValue),
        SignalProtocolStore.put st none v
          = .error (.invalidArgument "Key and value cannot be null or undefined")) ∧
    (∀ (st : Store) (k : String),
        SignalProtocolStore.put st (some k) .undef
          = .error (.invalidArgument "Key and value cannot be null or undefined")) ∧
    (∀ (st : Store) (k : String) (v : StoreValue), v ≠ .undef →
        SignalProtocolStore.put st (some k) v = .ok (mapSet st k v)) ∧
    (∀ (st : Store),
        SignalProtocolStore.remove st none
          = .error (.invalidArgument "Key cannot be null or undefined")) ∧
    (∀ (st : Store) (k : String),
        SignalProtocolStore.remove st (some k) = .ok (mapDelete st k)) ∧
    (∀ (st : Store) (k : String), mapHas st k = false → mapDelete st k = st) ∧
    (∀ (st : Store) (keyId : String), mapHas st (nsPreKey ++ keyId) = false →
        SignalProtocolStore.removePreKey st keyId = .ok st) := by
  refine ⟨fun st d => rfl, SignalProtocolStore.get_some_key, fun st v => rfl,
    fun st k => rfl, ?_, fun st => rfl, fun st k => rfl,
    fun st k h => mapDelete_of_not_has h, ?_⟩
  · intro st k v hv
    cases v with
    | undef => exact absurd rfl hv
    | str s => rfl
    | num n => rfl
    | buf b => rfl
    | keyPair kp => rfl
    | preKey i kp => rfl
    | signedPreKey i kp sig => rfl
  · intro st keyId h
    show SignalProtocolStore.remove st (some (nsPreKey ++ keyId)) = .ok st
    show Except.ok (mapDelete st (nsPreKey ++ keyId)) = .ok st
    rw [mapDelete_of_not_has h]

theorem claim_C9_witness :
    SignalProtocolStore.put [] (some "k") (.num 5) = .ok [("k", StoreValue.num 5)] ∧
    SignalProtocolStore.removePreKey [] "9" = .ok [] :=
  ⟨claim_C9_primitive_contract.2.2.2.2.1 [] "k" (.num 5) (by decide),
   claim_C9_primitive_contract.2.2.2.2.2.2.2.2 [] "9" (by decide)⟩

/-- Claim C6 (counterexample): the number `0` stored under the identity-key
slot is present and fails the `KeyPair` shape check, yet
`getIdentityKeyPair` coerces it to the absent marker (`.ok none`) instead
of failing with a `CorruptState` error, refuting the claim as stated. -/
theorem claim_C6_counterexample :
    mapGet [(nsIdentity, StoreValue.num 0)] nsIdentity = some (.num 0) ∧
    isKeyPairTypeV (.num 0) = false ∧
    SignalProtocolStore.getIdentityKeyPair [(nsIdentity, StoreValue.num 0)] = .ok none :=
  ⟨rfl, rfl, rfl⟩


/-- A conditional guarded by `c = false` takes its else branch when `c` is
true. -/
theorem ite_eq_else {α : Type} (c : Bool) (h : c = true) (x y : α) :
    (if c = false then x else y) = y := by
  rw [h]
  simp

/-- Claim C6 (amended): every typed read fails with a `CorruptState` error
whenever a *truthy* value is present under the namespaced key but fails
that accessor's shape check; `getLocalRegistrationId` and `loadSession`
fail on any wrong-shaped value (their checks are not guarded by
falsiness), while `getIdentityKeyPair`, `loadPreKey`, `loadSignedPreKey`
and `loadIdentityKey` return the absent marker for falsy malformed values.
A malformed value is never returned. -/
theorem claim_C6_amended (st : Store) :
    (∀ v, mapGet st nsIdentity = some v → truthy v = true → isKeyPairTypeV v = false →
      SignalProtocolStore.getIdentityKeyPair st
        = .error (.corruptState "Stored identity key has invalid format")) ∧
    (∀ v, mapGet st "registrationId" = some v → (∀ n, v ≠ .num n) → v ≠ .undef →
      SignalProtocolStore.getLocalRegistrationId st
        = .error (.corruptState "Stored registration ID is not a number")) ∧
    (∀ keyId v, mapGet st (nsPreKey ++ keyId) = some v → truthy v = true →
      isKeyPairTypeV v = false →
      SignalProtocolStore.loadPreKey st keyId
        = .error (.corruptState "Stored pre-key has invalid format")) ∧
    (∀ keyId v, mapGet st (nsSignedKey ++ keyId) = some v → truthy v = true →
      isKeyPairTypeV v = false →
      SignalProtocolStore.loadSignedPreKey st keyId
        = .error (.corruptState "Stored signed pre-key has invalid format")) ∧
    (∀ id' v, mapGet st (nsSession ++ id') = some v → (∀ s, v ≠ .str s) → v ≠ .undef →
      SignalProtocolStore.loadSession st id'
        = .error (.corruptState "Session record must be a string")) ∧
    (∀ id' v, mapGet st (nsIdentity ++ id') = some v → truthy v = true →
      isArrayBufferV v = false →
      SignalProtocolStore.loadIdentityKey st id'
        = .error (.corruptState "Stored identity key has invalid format")) := by
  refine ⟨?_, ?_, ?_, ?_, ?_, ?_⟩
  · intro v hv htr hkp
    show (do
      let kp ← SignalProtocolStore.get st (some nsIdentity) .undef
      if truthy kp = false then pure none
      else match kp with
        | .keyPair p => pure (some p)
        | _ => throw (.corruptState "Stored identity key has invalid format")
      : Except StoreError (Option KeyPairT)) = _
    cases v with
    | keyPair kp => exact absurd hkp (by simp [isKeyPairTypeV])
    | undef => simp [truthy] at htr
    | str s =>
      rw [SignalProtocolStore.get_some_key, hv]
      exact ite_eq_else (truthy (.str s)) htr
        (pure none : Except StoreError (Option KeyPairT))
        (throw (StoreError.corruptState "Stored identity key has invalid format") : Except StoreError (Option KeyPairT))
    | num n =>
      rw [SignalProtocolStore.get_some_key, hv]
      exact ite_eq_else (truthy (.num n)) htr
        (pure none : Except StoreError (Option KeyPairT))
        (throw (StoreError.corruptState "Stored identity key has invalid format") : Except StoreError (Option KeyPairT))
    | buf b =>
      rw [SignalProtocolStore.get_some_key, hv]
      exact ite_eq_else (truthy (.buf b)) htr
        (pure none : Except StoreError (Option KeyPairT))
        (throw (StoreError.corruptState "Stored identity key has invalid format") : Except StoreError (Option KeyPairT))
    | preKey i kp =>
      rw [SignalProtocolStore.get_some_key, hv]
      exact ite_eq_else (truthy (.preKey i kp)) htr
        (pure none : Except StoreError (Option KeyPairT))
        (throw (StoreError.corruptState "Stored identity key has invalid format") : Except StoreError (Option KeyPairT))
    | signedPreKey i kp sig =>
      rw [SignalProtocolStore.get_some_key, hv]
      exact ite_eq_else (truthy (.signedPreKey i kp sig)) htr
        (pure none : Except StoreError (Option KeyPairT))
        (throw (StoreError.corruptState "Stored identity key has invalid format") : Except StoreError (Option KeyPairT))
  · intro v hv hn hu
    show (do
      let rid ← SignalProtocolStore.get st (some "registrationId") .undef
      match rid with
      | .num n => pure (some n)
      | .undef => pure none
      | _ => throw (.corruptState "Stored registration ID is not a number")
      : Except StoreError (Option Int)) = _
    rw [SignalProtocolStore.get_some_key, hv]
    cases v with
    | num n => exact absurd rfl (hn n)
    | undef => exact absurd rfl hu
    | str s => rfl
    | buf b => rfl
    | keyPair kp => rfl
    | preKey i kp => rfl
    | signedPreKey i kp sig => rfl
  · intro keyId v hv htr hkp
    show (do
      let res ← SignalProtocolStore.get st (some (nsPreKey ++ keyId)) .undef
      if truthy res = false then pure none
      else match res with
        | .keyPair p => pure (some p)
        | _ => throw (.corruptState "Stored pre-key has invalid format")
      : Except StoreError (Option KeyPairT)) = _
    cases v with
    | keyPair kp => exact absurd hkp (by simp [isKeyPairTypeV])
    | undef => simp [truthy] at htr
    | str s =>
      rw [SignalProtocolStore.get_some_key, hv]
      exact ite_eq_else (truthy (.str s)) htr
        (pure none : Except StoreError (Option KeyPairT))
        (throw (StoreError.corruptState "Stored pre-key has invalid format") : Except StoreError (Option KeyPairT))
    | num n =>
      rw [SignalProtocolStore.get_some_key, hv]
      exact ite_eq_else (truthy (.num n)) htr
        (pure none : Except StoreError (Option KeyPairT))
        (throw (StoreError.corruptState "Stored pre-key has invalid format") : Except StoreError (Option KeyPairT))
    | buf b =>
      rw [SignalProtocolStore.get_some_key, hv]
      exact ite_eq_else (truthy (.buf b)) htr
        (pure none : Except StoreError (Option KeyPairT))
        (throw (StoreError.corruptState "Stored pre-key has invalid format") : Except StoreError (Option KeyPairT))
    | preKey i kp =>
      rw [SignalProtocolStore.get_some_key, hv]
      exact ite_eq_else (truthy (.preKey i kp)) htr
        (pure none : Except StoreError (Option KeyPairT))
        (throw (StoreError.corruptState "Stored pre-key has invalid format") : Except StoreError (Option KeyPairT))
    | signedPreKey i kp sig =>
      rw [SignalProtocolStore.get_some_key, hv]
      exact ite_eq_else (truthy (.signedPreKey i kp sig)) htr
        (pure none : Except StoreError (Option KeyPairT))
        (throw (StoreError.corruptState "Stored pre-key has invalid format") : Except StoreError (Option KeyPairT))
  · intro keyId v hv htr hkp
    show (do
      let res ← SignalProtocolStore.get st (some (nsSignedKey ++ keyId)) .undef
      if truthy res = false then pure none
      else match res with
        | .keyPair p => pure (some p)
        | _ => throw (.corruptState "Stored signed pre-key has invalid format")
      : Except StoreError (Option KeyPairT)) = _
    cases v with
    | keyPair kp => exact absurd hkp (by simp [isKeyPairTypeV])
    | undef => simp [truthy] at htr
    | str s =>
      rw [SignalProtocolStore.get_some_key, hv]
      exact ite_eq_else (truthy (.str s)) htr
        (pure none : Except StoreError (Option KeyPairT))
        (throw (StoreError.corruptState "Stored signed pre-key has invalid format") : Except StoreError (Option KeyPairT))
    | num n =>
      rw [SignalProtocolStore.get_some_key, hv]
      exact ite_eq_else (truthy (.num n)) htr
        (pure none : Except StoreError (Option KeyPairT))
        (throw (StoreError.corruptState "Stored signed pre-key has invalid format") : Except StoreError (Option KeyPairT))
    | buf b =>
      rw [SignalProtocolStore.get_some_key, hv]
      exact ite_eq_else (truthy (.buf b)) htr
        (pure none : Except StoreError (Option KeyPairT))
        (throw (StoreError.corruptState "Stored signed pre-key has invalid format") : Except StoreError (Option KeyPairT))
    | preKey i kp =>
      rw [SignalProtocolStore.get_some_key, hv]
      exact ite_eq_else (truthy (.preKey i kp)) htr
        (pure none : Except StoreError (Option KeyPairT))
        (throw (StoreError.corruptState "Stored signed pre-key has invalid format") : Except StoreError (Option KeyPairT))
    | signedPreKey i kp sig =>
      rw [SignalProtocolStore.get_some_key, hv]
      exact ite_eq_else (truthy (.signedPreKey i kp sig)) htr
        (pure none : Except StoreError (Option KeyPairT))
        (throw (StoreError.corruptState "Stored signed pre-key has invalid format") : Except StoreError (Option KeyPairT))
  · intro id' v hv hs hu
    show (do
      let r ← SignalProtocolStore.get st (some (nsSession ++ id')) .undef
      match r with
      | .str s => pure (some s)
      | .undef => pure none
      | _ => throw (.corruptState "Session record must be a string")
      : Except StoreError (Option String)) = _
    rw [SignalProtocolStore.get_some_key, hv]
    cases v with
    | str s => exact absurd rfl (hs s)
    | undef => exact absurd rfl hu
    | num n => rfl
    | buf b => rfl
    | keyPair kp => rfl
    | preKey i kp => rfl
    | signedPreKey i kp sig => rfl
  · intro id' v hv htr hab
    show (do
      let key ← SignalProtocolStore.get st (some (nsIdentity ++ id')) .undef
      if truthy key = false then pure none
      else match key with
        | .buf b => pure (some b)
        | _ => throw (.corruptState "Stored identity key has invalid format")
      : Except StoreError (Option Bytes)) = _
    cases v with
    | buf b => exact absurd hab (by simp [isArrayBufferV])
    | undef => simp [truthy] at htr
    | str s =>
      rw [SignalProtocolStore.get_some_key, hv]
      exact ite_eq_else (truthy (.str s)) htr
        (pure none : Except StoreError (Option Bytes))
        (throw (StoreError.corruptState "Stored identity key has invalid format") : Except StoreError (Option Bytes))
    | num n =>
      rw [SignalProtocolStore.get_some_key, hv]
      exact ite_eq_else (truthy (.num n)) htr
        (pure none : Except StoreError (Option Bytes))
        (throw (StoreError.corruptState "Stored identity key has invalid format") : Except StoreError (Option Bytes))
    | keyPair kp =>
      rw [SignalProtocolStore.get_some_key, hv]
      exact ite_eq_else (truthy (.keyPair kp)) htr
        (pure none : Except StoreError (Option Bytes))
        (throw (StoreError.corruptState "Stored identity key has invalid format") : Except StoreError (Option Bytes))
    | preKey i kp =>
      rw [SignalProtocolStore.get_some_key, hv]
      exact ite_eq_else (truthy (.preKey i kp)) htr
        (pure none : Except StoreError (Option Bytes))
        (throw (StoreError.corruptState "Stored identity key has invalid format") : Except StoreError (Option Bytes))
    | signedPreKey i kp sig =>
      rw [SignalProtocolStore.get_some_key, hv]
      exact ite_eq_else (truthy (.signedPreKey i kp sig)) htr
        (pure none : Except StoreError (Option Bytes))
        (throw (StoreError.corruptState "Stored identity key has invalid format") : Except StoreError (Option Bytes))

theorem claim_C6_amended_witness :
    SignalProtocolStore.loadPreKey [(nsPreKey ++ "1", StoreValue.str "oops")] "1"
      = .error (.corruptState "Stored pre-key has invalid format") :=
  (claim_C6_amended [(nsPreKey ++ "1", StoreValue.str "oops")]).2.2.1 "1"
    (.str "oops") (by decide) (by decide) (by decide)

/-- The fold of conditional deletes performed by `removeAllSessions` acts
as a filter: an entry survives unless its key satisfies the predicate and
occurs among the iterated keys. -/
theorem foldl_conditional_delete (q : String → Bool) :
    ∀ (iter acc : Store),
    iter.foldl (fun a e => if q e.1 then mapDelete a e.1 else a) acc
      = acc.filter (fun x => !(q x.1 && iter.any (fun e => x.1 == e.1))) := by
  intro iter
  induction iter with
  | nil =>
    intro acc
    simp
  | cons e t ih =>
    intro acc
    rw [List.foldl_cons]
    by_cases hq : q e.1 = true
    · rw [if_pos hq, ih, mapDelete, List.filter_filter]
      apply List.filter_congr
      intro x _
      cases hxe : (x.1 == e.1)
      · simp [hxe]
      · have hx1 : x.1 = e.1 := eq_of_beq hxe
        simp [hxe, hx1, hq]
    · have hq' : q e.1 = false := Bool.eq_false_iff.mpr hq
      rw [if_neg hq, ih]
      apply List.filter_congr
      intro x _
      cases hxe : (x.1 == e.1)
      · simp [hxe]
      · have hx1 : x.1 = e.1 := eq_of_beq hxe
        simp [hxe, hx1, hq']

/-- Claim C7: `removeAllSessions(r)` removes exactly those entries whose key
starts with the session prefix concatenated with `r`, and leaves every
other entry — sessions of unrelated peers and all entries of the other
record kinds — unchanged (the result is the filter of the store by the
complement of that prefix test). -/
theorem claim_C7_removeAllSessions (st : Store) (r : String) :
    SignalProtocolStore.removeAllSessions st r
      = st.filter (fun e => !(e.1.startsWith (nsSession ++ r))) := by
  rw [SignalProtocolStore.removeAllSessions,
    foldl_conditional_delete (fun s => s.startsWith (nsSession ++ r)) st st]
  apply List.filter_congr
  intro x hx
  have hany : st.any (fun e => x.1 == e.1) = true :=
    List.any_eq_true.mpr ⟨x, hx, by simp⟩
  rw [hany]
  simp
